import Mathlib

/-! Shallow embedding of the two weld plugin scripts of this repository:
variant 1 is src/plugins/plugins/weld/mcvm_weld.py and variant 2 is
src/plugins/plugins/weld/nitro_weld.py.  Paths are modelled as lists of
components, directories as explicit listings of their entries, and the
line-based stdout protocol as a list of structured emissions.  Filesystem
primitives (os.listdir, os.rename, os.remove, os.mkdir, path.exists,
path.is_file) are modelled by explicit list manipulation; the external
merge engine (smithed.weld.run_weld) is modelled only through the
arguments the scripts pass to it and the archive file its save call
produces, since its own code is not part of this repository. -/

deriving instance DecidableEq for Except

/-- Python substring matching, step 1: whether character list h starts
with character list n. -/
def charsStartWith : List Char → List Char → Bool
  | [], _ => true
  | _ :: _, [] => false
  | a :: n, b :: h => a == b && charsStartWith n h

/-- Python substring matching, step 2: whether needle occurs contiguously
inside the second list. -/
def charsContain (needle : List Char) : List Char → Bool
  | [] => needle.isEmpty
  | c :: t => charsStartWith needle (c :: t) || charsContain needle t

/-- The Python expression needle in hay on strings (substring containment),
used by both scripts for the merged-archive marker and the ignore list. -/
def substr (needle hay : String) : Bool :=
  charsContain needle.toList hay.toList

mutual
/-- JSON values, covering what the plugins pass to json.dumps. -/
inductive Json where
  | null : Json
  | bool (b : Bool) : Json
  | str (s : String) : Json
  | arr (xs : JsonArr) : Json
  | obj (kvs : JsonObj) : Json
/-- A JSON array. -/
inductive JsonArr where
  | nil : JsonArr
  | cons (hd : Json) (tl : JsonArr) : JsonArr
/-- A JSON object, an ordered key-value list as in a Python dict. -/
inductive JsonObj where
  | nil : JsonObj
  | cons (key : String) (val : Json) (tl : JsonObj) : JsonObj
end

/-- Escaping of one character inside a JSON string literal, as json.dumps
performs it for the characters these scripts can produce. -/
def jsonEscapeChar (c : Char) : String :=
  if c = '\\' then "\\\\"
  else if c = '"' then "\\\""
  else if c = '\n' then "\\n"
  else String.singleton c

/-- Escaping of a whole string for a JSON string literal. -/
def jsonEscape (s : String) : String :=
  String.join (s.toList.map jsonEscapeChar)

mutual
/-- json.dumps with Python default separators: items joined by a comma
and a space, keys and values joined by a colon and a space. -/
def Json.dumps : Json → String
  | .null => "null"
  | .bool b => if b then "true" else "false"
  | .str s => "\"" ++ jsonEscape s ++ "\""
  | .arr xs => "[" ++ JsonArr.dumps xs ++ "]"
  | .obj kvs => "\x7b" ++ JsonObj.dumps kvs ++ "\x7d"
/-- Serialization of the items of a JSON array. -/
def JsonArr.dumps : JsonArr → String
  | .nil => ""
  | .cons x .nil => Json.dumps x
  | .cons x (.cons y tl) => Json.dumps x ++ ", " ++ JsonArr.dumps (.cons y tl)
/-- Serialization of the entries of a JSON object. -/
def JsonObj.dumps : JsonObj → String
  | .nil => ""
  | .cons k v .nil => "\"" ++ jsonEscape k ++ "\": " ++ Json.dumps v
  | .cons k v (.cons k2 v2 tl) =>
      "\"" ++ jsonEscape k ++ "\": " ++ Json.dumps v ++ ", " ++
        JsonObj.dumps (.cons k2 v2 tl)
end

/-- The Python comparison data == "__null__" of nitro_weld.py line 12:
true exactly when the payload is that string. -/
def isNullMarker : Json → Bool
  | .str s => s == "__null__"
  | _ => false

/-- The output function of nitro_weld.py (lines 7 to 17).  With no data it
prints the sentinel plus the method between plain double quotes; with data
it prints the sentinel plus the dump of a single-key object, where the
special marker string is replaced by an explicit JSON null. -/
def nitroOutput (method : String) (data : Option Json) : String :=
  match data with
  | none => "%_\"" ++ method ++ "\""
  | some d =>
    if isNullMarker d then
      "%_" ++ Json.dumps (Json.obj (JsonObj.cons method Json.null JsonObj.nil))
    else
      "%_" ++ Json.dumps (Json.obj (JsonObj.cons method d JsonObj.nil))

/-- The output function of mcvm_weld.py (lines 7 to 14): identical except
that it has no special handling for the marker string. -/
def mcvmOutput (method : String) (data : Option Json) : String :=
  match data with
  | none => "%_\"" ++ method ++ "\""
  | some d => "%_" ++ Json.dumps (Json.obj (JsonObj.cons method d JsonObj.nil))

/-- The three message-contents shapes the scripts put into a message
payload: a StartProcess variant, a Success variant, an Error variant. -/
inductive MsgContents where
  | startProcess (s : String) : MsgContents
  | success (s : String) : MsgContents
  | error (s : String) : MsgContents
deriving DecidableEq, Repr

/-- The two payload shapes passed to set_result: the override structure of
the instance-setup hook, and the explicit-null marker for other hooks. -/
inductive SetResultPayload where
  | instanceOverrides (mainClassOverride jarPathOverride : Option String)
      (classpathExtension : List String) : SetResultPayload
  | explicitNull : SetResultPayload
deriving DecidableEq, Repr

/-- One line written to stdout by a script: the four protocol messages,
plus plain diagnostic lines that do not carry the protocol sentinel. -/
inductive Emission where
  | startProcess : Emission
  | message (contents : MsgContents) (level : String) : Emission
  | endProcess : Emission
  | setResult (payload : SetResultPayload) : Emission
  | diagnostic (s : String) : Emission
deriving DecidableEq, Repr

/-- Whether an emission is a protocol message (prefixed with the sentinel)
rather than a plain diagnostic line. -/
def Emission.isProtocol : Emission → Bool
  | .diagnostic _ => false
  | _ => true

/-- Whether an emission is a terminal set_result message. -/
def Emission.isSetResult : Emission → Bool
  | .setResult _ => true
  | _ => false

/-- Whether an emission is a message whose contents are the Error variant. -/
def isErrorMessage : Emission → Bool
  | .message (.error _) _ => true
  | _ => false

/-- A filesystem path, modelled as its list of components. -/
abbrev FsPath := List String

/-- The str conversion of a path. -/
def pathStr (p : FsPath) : String :=
  String.intercalate "/" p

/-- The modelled contents of one managed directory: the names of its
regular files, the names of its other (directory) entries, and the
contents of its unwelded staging subdirectory when that subdirectory
exists.  Staging contents are regular-file names.  A real directory cannot
hold a regular file named unwelded next to the staging subdirectory; the
well-formedness predicate below excludes that name from files. -/
structure DirState where
  files : List String
  subdirs : List String
  unwelded : Option (List String)
deriving DecidableEq, Repr

/-- The filesystem, as a finite association of directory paths to their
contents.  A path absent from the list does not exist as a directory. -/
structure Fs where
  dirs : List (FsPath × DirState)
deriving DecidableEq, Repr

/-- Directory lookup (os.listdir succeeds exactly on present paths). -/
def Fs.find (fs : Fs) (p : FsPath) : Option DirState :=
  (fs.dirs.find? (fun pr => pr.1 == p)).map (fun pr => pr.2)

/-- Replacing the contents of an existing directory. -/
def Fs.set (fs : Fs) (p : FsPath) (st : DirState) : Fs :=
  ⟨fs.dirs.map (fun pr => if pr.1 == p then (p, st) else pr)⟩

/-- The first staging loop shared by both weld_dir variants (mcvm_weld.py
lines 22 to 36, nitro_weld.py lines 27 to 41), iterating over a snapshot
of os.listdir(dir).  Directory entries are skipped by the path.is_file()
test, so the loop is modelled over the regular-file names.  A file whose
name contains the archive marker is skipped by continue.  The following
loop over the ignore list also says continue on a match, but that
continue only advances the inner loop, so it never prevents the move:
ignored files are moved like the rest, which is why the parameter below
is unused.  A move deletes any same-named file already in staging (the
os.remove call) and then renames the file into staging. -/
def forwardMoves (marker : String) (ignore : List String) :
    List String → List String → List String → List String × List String
  | [], f, u => (f, u)
  | e :: rest, f, u =>
    if substr marker e then forwardMoves marker ignore rest f u
    else forwardMoves marker ignore rest (f.erase e) (u.erase e ++ [e])

/-- The body of the second, restoring loop of nitro_weld.py (lines 44 to
51) for a single staged entry: the inner loop over the ignore patterns.
On a matching pattern the code removes any same-named entry of the outer
directory and renames the staged file out.  There is no break, so a
second matching pattern repeats the move: os.remove then deletes the file
just restored (the target now exists) and os.rename raises
FileNotFoundError because the staged source is gone.  os.remove raises
IsADirectoryError when the same-named target entry is a directory,
including the staging subdirectory itself. -/
def restoreEntry (subdirs : List String) (e : String) :
    List String → List String → List String →
    Except String (List String × List String)
  | [], f, u => .ok (f, u)
  | p :: rest, f, u =>
    if substr p e then
      if e ∈ subdirs ∨ e = "unwelded" then .error "IsADirectoryError"
      else
        let f1 := if e ∈ f then f.erase e else f
        if e ∈ u then restoreEntry subdirs e rest (f1 ++ [e]) (u.erase e)
        else .error "FileNotFoundError"
    else restoreEntry subdirs e rest f u

/-- The outer restoring loop of nitro_weld.py lines 44 to 51, iterating
over a snapshot of os.listdir(unwelded_path). -/
def restorePass (ignore subdirs : List String) :
    List String → List String → List String →
    Except String (List String × List String)
  | [], f, u => .ok (f, u)
  | e :: rest, f, u =>
    match restoreEntry subdirs e ignore f u with
    | .error s => .error s
    | .ok (f1, u1) => restorePass ignore subdirs rest f1 u1

/-- The effect of weld_dir of mcvm_weld.py (lines 16 to 44) on the target
directory: create the staging subdirectory when absent, run the forward
staging loop with archive marker weld_pack, then save the merged archive
weld_pack.zip into the directory with overwrite.  The external engine is
modelled as producing that archive; variant 1 has no restoring loop. -/
def mcvmWeldDirState (ignore : List String) (st : DirState) : DirState :=
  let u0 := st.unwelded.getD []
  let res := forwardMoves "weld_pack" ignore st.files st.files u0
  { files := res.1.erase "weld_pack.zip" ++ ["weld_pack.zip"],
    subdirs := st.subdirs,
    unwelded := some res.2 }

/-- The effect of weld_dir of nitro_weld.py (lines 20 to 65) on the target
directory: create the staging subdirectory when absent, run the forward
staging loop with archive marker Welded Packs, run the restoring loop over
a snapshot of the staging contents, then save the merged archive
Welded Packs.zip with overwrite when mode is data or resource (for any
other mode the save branch is not taken). -/
def nitroWeldDirState (ignore : List String) (mode : String) (st : DirState) :
    Except String DirState :=
  let u0 := st.unwelded.getD []
  let res := forwardMoves "Welded Packs" ignore st.files st.files u0
  match restorePass ignore st.subdirs res.2 res.1 res.2 with
  | .error e => .error e
  | .ok fu =>
    if mode = "data" ∨ mode = "resource" then
      .ok { files := fu.1.erase "Welded Packs.zip" ++ ["Welded Packs.zip"],
            subdirs := st.subdirs,
            unwelded := some fu.2 }
    else
      .ok { files := fu.1, subdirs := st.subdirs, unwelded := some fu.2 }

/-- The arguments one weld_dir invocation passes to the external merge
engine: the pack input paths, the output entry of the beet config, and
the working directory. -/
structure WeldCall where
  packs : List FsPath
  outputConfig : String
  directory : FsPath
deriving DecidableEq, Repr

/-- The engine arguments of mcvm_weld.py lines 39 to 44: the beet config
output is str(dir), the working directory is dir, and each pack path is
dir.joinpath(entry) for the entries of the staging listing, so the pack
paths point into the target directory rather than into staging. -/
def mcvmWeldCall (dir : FsPath) (ignore : List String) (st : DirState) :
    WeldCall :=
  let u0 := st.unwelded.getD []
  let res := forwardMoves "weld_pack" ignore st.files st.files u0
  { packs := res.2.map (fun x => dir ++ [x]),
    outputConfig := pathStr dir,
    directory := dir }

/-- The engine arguments of nitro_weld.py lines 53 to 65: computed after
the restoring loop, each pack path is unwelded_path.joinpath(entry). -/
def nitroWeldCall (dir : FsPath) (ignore : List String) (st : DirState) :
    Except String WeldCall :=
  let u0 := st.unwelded.getD []
  let res := forwardMoves "Welded Packs" ignore st.files st.files u0
  match restorePass ignore st.subdirs res.2 res.1 res.2 with
  | .error e => .error e
  | .ok fu =>
    .ok { packs := fu.2.map (fun x => dir ++ ["unwelded", x]),
          outputConfig := pathStr dir,
          directory := dir }

/-- weld_dir of mcvm_weld.py applied at a path of the filesystem.
os.listdir raises FileNotFoundError when the directory is absent. -/
def mcvmWeldDirFs (fs : Fs) (dir : FsPath) (ignore : List String) :
    Except String Fs :=
  match fs.find dir with
  | none => .error "FileNotFoundError"
  | some st => .ok (fs.set dir (mcvmWeldDirState ignore st))

/-- weld_dir of nitro_weld.py applied at a path of the filesystem. -/
def nitroWeldDirFs (fs : Fs) (dir : FsPath) (ignore : List String)
    (mode : String) : Except String Fs :=
  match fs.find dir with
  | none => .error "FileNotFoundError"
  | some st =>
    match nitroWeldDirState ignore mode st with
    | .error e => .error e
    | .ok st1 => .ok (fs.set dir st1)

/-- The loop of mcvm_weld.py lines 92 to 96 over a list of directories. -/
def mcvmWeldAll (fs : Fs) (dirs : List FsPath) (ignore : List String) :
    Except String Fs :=
  match dirs with
  | [] => .ok fs
  | d :: rest =>
    match mcvmWeldDirFs fs d ignore with
    | .error e => .error e
    | .ok fs1 => mcvmWeldAll fs1 rest ignore

/-- The loops of nitro_weld.py lines 133 to 137 over a list of
directories with a fixed mode. -/
def nitroWeldAll (fs : Fs) (dirs : List FsPath) (ignore : List String)
    (mode : String) : Except String Fs :=
  match dirs with
  | [] => .ok fs
  | d :: rest =>
    match nitroWeldDirFs fs d ignore mode with
    | .error e => .error e
    | .ok fs1 => nitroWeldAll fs1 rest ignore mode

/-- The recognized optional keys of the config object, with key absence
distinguished from a null value where the scripts distinguish them. -/
structure WeldConfig where
  disable_weld : Option Bool
  datapack_folder : Option (Option String)
  weld_ignore : Option (List String)
deriving DecidableEq, Repr

/-- The parsed hook argument.  game_dir is none when the JSON value is
null; key absence for the unconditionally read keys is not modelled (it
would raise KeyError before anything in these claims happens).  The
game_dir string is modelled directly as a path. -/
structure HookArg where
  update_depth : Option String
  config : WeldConfig
  game_dir : Option FsPath
  side : String
deriving DecidableEq, Repr

/-- The weld_ignore lookup shared by both scripts (mcvm_weld.py lines 87
to 89, nitro_weld.py lines 128 to 130): empty when the key is absent. -/
def weldIgnoreOf (c : WeldConfig) : List String :=
  c.weld_ignore.getD []

/-- The datapack_folder lookup of nitro_weld.py line 111: None when the
key is absent, the value otherwise. -/
def nitroDatapackFolder (c : WeldConfig) : Option String :=
  match c.datapack_folder with
  | some v => v
  | none => none

/-- Datapack directory resolution of nitro_weld.py lines 110 to 124.
With a configured datapack folder the single target is
game_dir/datapack_folder.  Otherwise, on the client side, the immediate
subdirectories of game_dir/saves each contribute saves/entry/datapacks
when that path exists on disk; os.walk on a missing saves directory
yields nothing, so the next() call raises StopIteration.  On any other
side the single target is game_dir/world/datapacks. -/
def nitroResolveDatapackDirs (gameDir : FsPath) (datapackFolder : Option String)
    (side : String) (fs : Fs) : Except String (List FsPath) :=
  match datapackFolder with
  | some folder => .ok [gameDir ++ [folder]]
  | none =>
    if side = "client" then
      match fs.find (gameDir ++ ["saves"]) with
      | none => .error "StopIteration"
      | some savesSt =>
        .ok ((savesSt.subdirs.map
              (fun entry => gameDir ++ ["saves", entry, "datapacks"])).filter
            (fun p => (fs.find p).isSome))
    else .ok [gameDir ++ ["world", "datapacks"]]

/-- Datapack directory resolution of mcvm_weld.py lines 73 to 83.  The
client branch appends saves_dir.join(entry[0]) for each immediate
subdirectory of saves: Path objects have no join attribute, so the first
loop iteration raises AttributeError; with no subdirectories the loop
body never runs and the list stays empty. -/
def mcvmResolveDatapackDirs (gameDir : FsPath) (datapackFolder : Option String)
    (side : String) (fs : Fs) : Except String (List FsPath) :=
  match datapackFolder with
  | some folder => .ok [gameDir ++ [folder]]
  | none =>
    if side = "client" then
      match fs.find (gameDir ++ ["saves"]) with
      | none => .error "StopIteration"
      | some savesSt =>
        match savesSt.subdirs with
        | [] => .ok []
        | _ :: _ => .error "AttributeError: no attribute join"
    else .ok [gameDir ++ ["world", "datapacks"]]

/-- The set_result helper of nitro_weld.py lines 67 to 75: the override
structure with null fields for the instance-setup hook, the explicit-null
marker for every other hook name. -/
def nitroSetResult (hook : String) : Emission :=
  if hook = "on_instance_setup" then
    .setResult (SetResultPayload.instanceOverrides none none [])
  else
    .setResult SetResultPayload.explicitNull

/-- The opening of run of nitro_weld.py lines 78 to 81: on an
unrecognized hook name the script prints a plain diagnostic line and the
terminal result, but there is no return statement, so execution falls
through into the rest of run.  These are the emissions of that opening. -/
def nitroPrefixTrace (hook : String) : List Emission :=
  if ¬(hook = "after_packages_installed" ∨ hook = "on_instance_setup" ∨
      hook = "update_world_files") then
    [Emission.diagnostic "$_Incorrect hook", nitroSetResult hook]
  else []

/-- run of nitro_weld.py (lines 77 to 147), as a function of the hook
name, the parsed argument and the filesystem.  A normal return yields the
emissions so far and the final filesystem; a raised exception yields the
error string and the emissions made before the raise (the caller, main,
appends its error message to them). -/
def nitroRun (hook : String) (arg : HookArg) (fs : Fs) :
    Except (String × List Emission) (List Emission × Fs) :=
  let t1 := nitroPrefixTrace hook
  if hook = "on_instance_setup" ∧ arg.update_depth = some "full" then
    .ok (t1 ++ [nitroSetResult hook], fs)
  else if arg.config.disable_weld = some true then
    .ok (t1 ++ [nitroSetResult hook], fs)
  else
    let t2 := t1 ++ [Emission.startProcess,
      Emission.message (MsgContents.startProcess "Welding packs") "important"]
    match arg.game_dir with
    | none => .ok (t2 ++ [nitroSetResult hook], fs)
    | some gameDir =>
      match nitroResolveDatapackDirs gameDir (nitroDatapackFolder arg.config)
          arg.side fs with
      | .error e => .error (e, t2)
      | .ok datapackDirs =>
        match nitroWeldAll fs datapackDirs (weldIgnoreOf arg.config) "data" with
        | .error e => .error (e, t2)
        | .ok fs1 =>
          match nitroWeldAll fs1 [gameDir ++ ["resourcepacks"]]
              (weldIgnoreOf arg.config) "resource" with
          | .error e => .error (e, t2)
          | .ok fs2 =>
            .ok (t2 ++
              [Emission.message (MsgContents.success "Packs welded") "important",
               Emission.endProcess,
               nitroSetResult hook], fs2)

/-- main of nitro_weld.py (lines 150 to 159): run inside try, and on any
exception a single error message with the Failed to weld packs prefix and
the text of the exception; nothing is emitted after it. -/
def nitroMain (hook : String) (arg : HookArg) (fs : Fs) : List Emission :=
  match nitroRun hook arg fs with
  | .ok (t, _) => t
  | .error (e, t) =>
    t ++ [Emission.message
      (MsgContents.error ("Failed to weld packs:\n" ++ e)) "important"]

/-- run of mcvm_weld.py (lines 46 to 104).  An unrecognized hook returns
at once with no emission; update_depth is read unconditionally (KeyError
when absent); game_dir null makes Path(None) raise TypeError after the
start messages; datapack_folder is read unconditionally from the config
(KeyError when the key is absent); run never emits any set_result. -/
def mcvmRun (hook : String) (arg : HookArg) (fs : Fs) :
    Except (String × List Emission) (List Emission × Fs) :=
  if hook ≠ "on_instance_setup" then .ok ([], fs)
  else
    match arg.update_depth with
    | none => .error ("KeyError: update_depth", [])
    | some depth =>
      if depth = "shallow" then .ok ([], fs)
      else if arg.config.disable_weld = some true then .ok ([], fs)
      else
        let t1 := [Emission.startProcess,
          Emission.message (MsgContents.startProcess "Welding packs") "important"]
        match arg.game_dir with
        | none => .error ("TypeError: game_dir is null", t1)
        | some gameDir =>
          match arg.config.datapack_folder with
          | none => .error ("KeyError: datapack_folder", t1)
          | some datapackFolder =>
            match mcvmResolveDatapackDirs gameDir datapackFolder arg.side fs with
            | .error e => .error (e, t1)
            | .ok datapackDirs =>
              match mcvmWeldAll fs datapackDirs (weldIgnoreOf arg.config) with
              | .error e => .error (e, t1)
              | .ok fs1 =>
                match mcvmWeldAll fs1 [gameDir ++ ["resourcepacks"]]
                    (weldIgnoreOf arg.config) with
                | .error e => .error (e, t1)
                | .ok fs2 =>
                  .ok (t1 ++
                    [Emission.message (MsgContents.success "Packs welded")
                      "important",
                     Emission.endProcess], fs2)

/-- The JSON payload of the single top-level output call of mcvm_weld.py
lines 110 to 114. -/
def mcvmTopLevelPayload : Json :=
  Json.obj (JsonObj.cons "main_class_override" Json.null
    (JsonObj.cons "jar_path_override" Json.null
      (JsonObj.cons "classpath_extension" (Json.arr JsonArr.nil)
        JsonObj.nil)))

/-- Executing mcvm_weld.py as a script: the module body defines output,
weld_dir, run and main (definitions emit nothing and touch nothing), then
calls output("set_result", ...) once at top level.  There is no
__main__ guard and nothing ever calls main or run, so the emissions and
the filesystem are independent of the command line. -/
def mcvmModuleBody (argv : List String) (fs : Fs) : List Emission × Fs :=
  ([Emission.setResult (SetResultPayload.instanceOverrides none none [])], fs)

/-- The number of ignore patterns a name contains, deciding whether the
restoring loop of nitro_weld.py moves it out of staging (once per
matching pattern, which is once too often from the second match on). -/
def matchCount (ignore : List String) (e : String) : Nat :=
  (ignore.filter (fun p => substr p e)).length

/-- The marker-free files of a listing: those the forward staging loop
moves into the staging subdirectory. -/
def movedFiles (marker : String) (es : List String) : List String :=
  es.filter (fun e => !substr marker e)

/-- Model well-formedness of a directory: listings hold no duplicate
names, and no regular file shares the name unwelded with the staging
subdirectory. -/
def DirWellFormed (st : DirState) : Prop :=
  st.files.Nodup ∧ st.subdirs.Nodup ∧ (st.unwelded.getD []).Nodup ∧
    "unwelded" ∉ st.files ∧ ∀ x ∈ st.files, x ∉ st.subdirs

instance (st : DirState) : Decidable (DirWellFormed st) := by
  unfold DirWellFormed; infer_instance

/-- A directory holding one regular file whose name contains the ignore
pattern b, with no staging subdirectory yet. -/
def c1St : DirState := ⟨["b.zip"], [], none⟩

/-- A directory holding one regular file that matches no pattern. -/
def c3St : DirState := ⟨["a.zip"], [], none⟩

/-- A well-formed argument whose config disables nothing and names the
datapack folder mypacks. -/
def c2Arg : HookArg :=
  ⟨some "normal", ⟨none, some (some "mypacks"), none⟩, some ["g"], "server"⟩

/-- A filesystem holding the two resolved target directories, empty. -/
def c2Fs : Fs :=
  ⟨[(["g", "mypacks"], ⟨[], [], none⟩),
    (["g", "resourcepacks"], ⟨[], [], none⟩)]⟩

/-- A game directory whose saves directory has immediate subdirectories A
and B, both with an existing datapacks directory. -/
def c5Fs : Fs :=
  ⟨[(["g", "saves"], ⟨[], ["A", "B"], none⟩),
    (["g", "saves", "A", "datapacks"], ⟨[], [], none⟩),
    (["g", "saves", "B", "datapacks"], ⟨[], [], none⟩)]⟩

/-- The same saves layout except that only A has a datapacks directory. -/
def c5FsNoB : Fs :=
  ⟨[(["g", "saves"], ⟨[], ["A", "B"], none⟩),
    (["g", "saves", "A", "datapacks"], ⟨[], [], none⟩)]⟩

/-- A recognized-hook argument for a variant 1 counterexample run. -/
def c6Arg : HookArg :=
  ⟨some "normal", ⟨none, some (some "mypacks"), none⟩, some ["g"], "server"⟩

/-- The filesystem for the variant 1 counterexample run. -/
def c6Fs : Fs :=
  ⟨[(["g", "mypacks"], ⟨[], [], none⟩),
    (["g", "resourcepacks"], ⟨[], [], none⟩)]⟩

/-- The non-skip trace of the variant 2 witness run. -/
def c6wTrace : List Emission :=
  [Emission.startProcess,
   Emission.message (MsgContents.startProcess "Welding packs") "important",
   Emission.message (MsgContents.success "Packs welded") "important",
   Emission.endProcess,
   Emission.setResult SetResultPayload.explicitNull]

/-- The filesystem after the variant 2 witness run. -/
def c6wFsAfter : Fs :=
  ⟨[(["g", "mypacks"], ⟨["Welded Packs.zip"], [], some []⟩),
    (["g", "resourcepacks"], ⟨["Welded Packs.zip"], [], some []⟩)]⟩

/-- An argument whose configured datapack folder does not exist in the
witness filesystem, so welding raises FileNotFoundError. -/
def c7Arg : HookArg :=
  ⟨none, ⟨none, some (some "mypacks"), none⟩, some ["g"], "server"⟩

/-- A filesystem without the configured datapack folder. -/
def c7Fs : Fs := ⟨[]⟩

/-- An argument with disable_weld set to true. -/
def c8Arg : HookArg :=
  ⟨some "full", ⟨some true, some (some "mypacks"), none⟩, some ["g"], "client"⟩

/-- A directory with one ignored and one staged file, for the idempotence
witness. -/
def c10St : DirState := ⟨["a.zip", "b.zip"], [], none⟩

/-- C1: the claim states that after weld_dir every regular file whose
name contains an ignore pattern is absent from the staging subdirectory
(variant 2: present directly in the directory).  Evaluation at a
directory holding the single ignored file b.zip with ignore list [b]:
variant 1 (mcvm_weld.py) moves the ignored file into staging and leaves
it there, because the continue in the ignore loop only advances that
inner loop and variant 1 has no restoring pass, contradicting the claim;
variant 2 (nitro_weld.py) ends with the file back in the directory and
absent from staging, as claimed. -/
theorem c1_ignored_file_left_in_staging_v1 :
    mcvmWeldDirState ["b"] c1St = ⟨["weld_pack.zip"], [], some ["b.zip"]⟩ ∧
    "b.zip" ∈ (mcvmWeldDirState ["b"] c1St).unwelded.getD [] ∧
    "b.zip" ∉ (mcvmWeldDirState ["b"] c1St).files ∧
    nitroWeldDirState ["b"] "data" c1St =
      .ok ⟨["b.zip", "Welded Packs.zip"], [], some []⟩ := by
  decide

/-- C2: the claim states that an unrecognized hook name short-circuits to
the terminal result with no merge and no further emission.  In variant 2
the branch lacks a return, so with hook bogus_hook and a weldable
argument the script emits the terminal result, then proceeds to weld
both target directories (the filesystem changes) and emits five further
protocol messages including a second terminal result. -/
theorem c2_unrecognized_hook_falls_through :
    nitroRun "bogus_hook" c2Arg c2Fs =
      .ok ([Emission.diagnostic "$_Incorrect hook",
        Emission.setResult SetResultPayload.explicitNull,
        Emission.startProcess,
        Emission.message (MsgContents.startProcess "Welding packs") "important",
        Emission.message (MsgContents.success "Packs welded") "important",
        Emission.endProcess,
        Emission.setResult SetResultPayload.explicitNull],
       ⟨[(["g", "mypacks"], ⟨["Welded Packs.zip"], [], some []⟩),
         (["g", "resourcepacks"], ⟨["Welded Packs.zip"], [], some []⟩)]⟩) ∧
    (⟨[(["g", "mypacks"], ⟨["Welded Packs.zip"], [], some []⟩),
       (["g", "resourcepacks"], ⟨["Welded Packs.zip"], [], some []⟩)]⟩ : Fs) ≠
      c2Fs := by
  decide

/-- C3: the claim states that the pack inputs handed to the merge engine
are the files inside the staging subdirectory.  Variant 1 builds them
with dir.joinpath, so its single input path is target-directory/entry,
not staging-subdirectory/entry as claimed; variant 2 builds
staging-subdirectory/entry.  Both point the output config and the
working directory at the target directory. -/
theorem c3_engine_inputs :
    mcvmWeldCall ["rp"] [] c3St =
      ⟨[["rp", "a.zip"]], "rp", ["rp"]⟩ ∧
    nitroWeldCall ["rp"] [] c3St =
      .ok ⟨[["rp", "unwelded", "a.zip"]], "rp", ["rp"]⟩ ∧
    (mcvmWeldCall ["rp"] [] c3St).packs ≠ [["rp", "unwelded", "a.zip"]] := by
  decide

/-- C4: executing variant 1 as a script runs only the module body, which
never calls main or run: for every command line and filesystem the
emissions are exactly the one set_result message with null overrides and
an empty classpath extension, the filesystem is untouched, and the line
printed for that message is the serialized set_result object. -/
theorem c4_v1_script_only_emits_set_result (argv : List String) (fs : Fs) :
    mcvmModuleBody argv fs =
      ([Emission.setResult (SetResultPayload.instanceOverrides none none [])],
       fs) ∧
    (mcvmModuleBody argv fs).1.all Emission.isSetResult = true ∧
    mcvmOutput "set_result" (some mcvmTopLevelPayload) =
      "%_\x7b\"set_result\": \x7b\"main_class_override\": null, \"jar_path_override\": null, \"classpath_extension\": []\x7d\x7d" := by
  exact ⟨rfl, rfl, rfl⟩

/-- C5: the claim states that with side client, no datapack folder, and
saves subdirectories A and B, resolution yields saves/A/datapacks and
saves/B/datapacks (variant 2: those that exist).  Variant 2 does exactly
that, and drops B when its datapacks directory is missing.  Variant 1
instead calls saves_dir.join(entry[0]): Path has no join attribute, so
the run raises AttributeError instead of yielding any target. -/
theorem c5_client_saves_resolution :
    nitroResolveDatapackDirs ["g"] none "client" c5Fs =
      .ok [["g", "saves", "A", "datapacks"], ["g", "saves", "B", "datapacks"]] ∧
    nitroResolveDatapackDirs ["g"] none "client" c5FsNoB =
      .ok [["g", "saves", "A", "datapacks"]] ∧
    mcvmResolveDatapackDirs ["g"] none "client" c5Fs =
      .error "AttributeError: no attribute join" := by
  decide

/-- C6 counterexample: a concrete non-skip run of variant 1 whose
protocol messages end with EndPocess and contain no SetResult at all, so
the claimed order with SetResult last fails for variant 1: run of
mcvm_weld.py never emits set_result (the only set_result of that script
is its top-level call, executed independently of run). -/
theorem c6_counterexample_v1_run_has_no_set_result :
    mcvmRun "on_instance_setup" c6Arg c6Fs =
      .ok ([Emission.startProcess,
        Emission.message (MsgContents.startProcess "Welding packs") "important",
        Emission.message (MsgContents.success "Packs welded") "important",
        Emission.endProcess],
       ⟨[(["g", "mypacks"], ⟨["weld_pack.zip"], [], some []⟩),
         (["g", "resourcepacks"], ⟨["weld_pack.zip"], [], some []⟩)]⟩) ∧
    ([Emission.startProcess,
      Emission.message (MsgContents.startProcess "Welding packs") "important",
      Emission.message (MsgContents.success "Packs welded") "important",
      Emission.endProcess].getLast? = some Emission.endProcess) ∧
    ([Emission.startProcess,
      Emission.message (MsgContents.startProcess "Welding packs") "important",
      Emission.message (MsgContents.success "Packs welded") "important",
      Emission.endProcess].all (fun m => !m.isSetResult) = true) := by
  decide

/-- C9: with no payload both emitters write the sentinel followed by the
JSON encoding of the kind (literally the kind between double quotes,
which is its JSON encoding whenever the kind needs no escaping); with a
payload they write the sentinel followed by the dump of the single-key
object mapping the kind to the payload; and when the payload is the
explicit-null marker string, variant 2 serializes the value as a literal
JSON null, which differs from the no-payload line. -/
theorem c9_emitter :
    (∀ m : String, jsonEscape m = m →
      nitroOutput m none = "%_" ++ Json.dumps (Json.str m) ∧
      mcvmOutput m none = "%_" ++ Json.dumps (Json.str m)) ∧
    (∀ (m : String) (d : Json), isNullMarker d = false →
      nitroOutput m (some d) =
        "%_" ++ Json.dumps (Json.obj (JsonObj.cons m d JsonObj.nil)) ∧
      mcvmOutput m (some d) =
        "%_" ++ Json.dumps (Json.obj (JsonObj.cons m d JsonObj.nil))) ∧
    (∀ m : String, nitroOutput m (some (Json.str "__null__")) =
      "%_" ++ Json.dumps (Json.obj (JsonObj.cons m Json.null JsonObj.nil))) ∧
    nitroOutput "set_result" (some (Json.str "__null__")) ≠
      nitroOutput "set_result" none := by
  refine ⟨fun m h => ⟨?_, ?_⟩, fun m d h => ⟨?_, ?_⟩, fun m => ?_, by decide⟩
  · simp [nitroOutput, Json.dumps, h, ← String.append_assoc]
  · simp [mcvmOutput, Json.dumps, h, ← String.append_assoc]
  · simp [nitroOutput, h]
  · simp [mcvmOutput]
  · simp [nitroOutput, isNullMarker]

/-- C9 witness: the emitter contract evaluated at the concrete kind
set_result and the concrete dict payload of the set_result helper. -/
theorem c9_emitter_witness :
    jsonEscape "set_result" = "set_result" ∧
    isNullMarker mcvmTopLevelPayload = false ∧
    (nitroOutput "set_result" none =
      "%_" ++ Json.dumps (Json.str "set_result")) ∧
    (nitroOutput "set_result" (some mcvmTopLevelPayload) =
      "%_" ++ Json.dumps
        (Json.obj (JsonObj.cons "set_result" mcvmTopLevelPayload JsonObj.nil))) ∧
    (nitroOutput "set_result" (some (Json.str "__null__")) =
      "%_" ++ Json.dumps
        (Json.obj (JsonObj.cons "set_result" Json.null JsonObj.nil))) :=
  ⟨rfl, rfl, (c9_emitter.1 "set_result" rfl).1,
    (c9_emitter.2.1 "set_result" mcvmTopLevelPayload rfl).1,
    c9_emitter.2.2.1 "set_result"⟩

/-- The set_result helper always produces a set_result message, whatever
the hook name. -/
theorem nitroSetResult_isSetResult (hook : String) :
    (nitroSetResult hook).isSetResult = true := by
  unfold nitroSetResult; split <;> rfl

/-- Every emission of the unrecognized-hook opening is either a plain
diagnostic line or a set_result message. -/
theorem nitroPrefixTrace_mem (hook : String) (m : Emission)
    (hm : m ∈ nitroPrefixTrace hook) :
    m.isProtocol = false ∨ m.isSetResult = true := by
  unfold nitroPrefixTrace at hm
  split at hm
  · simp only [List.mem_cons, List.mem_singleton, List.not_mem_nil,
      or_false] at hm
    rcases hm with rfl | rfl
    · left; rfl
    · right; exact nitroSetResult_isSetResult hook
  · cases hm

/-- With disable_weld set, run of nitro_weld.py returns at its
disable_weld check (or the earlier full-depth check), emitting only the
opening and one terminal result, with the filesystem untouched. -/
theorem nitroRun_disable_weld (hook : String) (arg : HookArg) (fs : Fs)
    (hdw : arg.config.disable_weld = some true) :
    nitroRun hook arg fs =
      .ok (nitroPrefixTrace hook ++ [nitroSetResult hook], fs) := by
  by_cases h1 : hook = "on_instance_setup" ∧ arg.update_depth = some "full"
  · simp only [nitroRun, if_pos h1]
  · simp only [nitroRun, if_neg h1, if_pos hdw]

/-- With disable_weld set, run of mcvm_weld.py returns before emitting
anything, with the filesystem untouched, provided its unconditional
update_depth read does not raise. -/
theorem mcvmRun_disable_weld (hook : String) (arg : HookArg) (fs : Fs)
    (hdw : arg.config.disable_weld = some true)
    (hdepth : hook = "on_instance_setup" → arg.update_depth.isSome) :
    mcvmRun hook arg fs = .ok ([], fs) := by
  by_cases hh : hook = "on_instance_setup"
  · subst hh
    have hs := hdepth rfl
    cases harg : arg.update_depth with
    | none => rw [harg] at hs; cases hs
    | some d =>
      by_cases hd : d = "shallow"
      · simp only [mcvmRun,
          if_neg (by simp : ¬("on_instance_setup" : String) ≠ "on_instance_setup"),
          harg, if_pos hd]
      · simp only [mcvmRun,
          if_neg (by simp : ¬("on_instance_setup" : String) ≠ "on_instance_setup"),
          harg, if_neg hd, if_pos hdw]
  · simp only [mcvmRun, if_pos hh]

/-- C8: for every invocation with disable_weld true in the config, both
variants return their result with the filesystem exactly as given (no
mutation of any target directory), every protocol message emitted is a
terminal set_result, and neither StartProcess nor EndProcess is emitted.
The variant 1 hypothesis on update_depth only excludes the KeyError of
its unconditional read of that key. -/
theorem c8_disable_weld_no_mutation (hook : String) (arg : HookArg) (fs : Fs)
    (hdw : arg.config.disable_weld = some true)
    (hdepth : hook = "on_instance_setup" → arg.update_depth.isSome) :
    (∃ t, nitroRun hook arg fs = .ok (t, fs) ∧
      (∀ m ∈ t, m.isProtocol = true → m.isSetResult = true) ∧
      Emission.startProcess ∉ t ∧ Emission.endProcess ∉ t) ∧
    mcvmRun hook arg fs = .ok ([], fs) := by
  constructor
  · refine ⟨nitroPrefixTrace hook ++ [nitroSetResult hook],
      nitroRun_disable_weld hook arg fs hdw, ?_, ?_, ?_⟩
    · intro m hm hp
      rcases List.mem_append.mp hm with h | h
      · rcases nitroPrefixTrace_mem hook m h with h2 | h2
        · rw [hp] at h2; cases h2
        · exact h2
      · rcases List.mem_singleton.mp h with rfl
        exact nitroSetResult_isSetResult hook
    · intro hmem
      rcases List.mem_append.mp hmem with h | h
      · rcases nitroPrefixTrace_mem hook _ h with h2 | h2 <;>
          simp [Emission.isProtocol, Emission.isSetResult] at h2
      · rcases List.mem_singleton.mp h with heq
        have := nitroSetResult_isSetResult hook
        rw [← heq] at this; cases this
    · intro hmem
      rcases List.mem_append.mp hmem with h | h
      · rcases nitroPrefixTrace_mem hook _ h with h2 | h2 <;>
          simp [Emission.isProtocol, Emission.isSetResult] at h2
      · rcases List.mem_singleton.mp h with heq
        have := nitroSetResult_isSetResult hook
        rw [← heq] at this; cases this
  · exact mcvmRun_disable_weld hook arg fs hdw hdepth

/-- C8 witness: the disabled-weld frame property at the instance-setup
hook with a concrete argument and filesystem. -/
theorem c8_disable_weld_no_mutation_witness :
    c8Arg.config.disable_weld = some true ∧
    ((∃ t, nitroRun "on_instance_setup" c8Arg c5Fs = .ok (t, c5Fs) ∧
      (∀ m ∈ t, m.isProtocol = true → m.isSetResult = true) ∧
      Emission.startProcess ∉ t ∧ Emission.endProcess ∉ t) ∧
    mcvmRun "on_instance_setup" c8Arg c5Fs = .ok ([], c5Fs)) :=
  ⟨rfl, c8_disable_weld_no_mutation "on_instance_setup" c8Arg c5Fs rfl
    (fun _ => rfl)⟩

/-- run of nitro_weld.py can only raise after its opening and the two
start messages: the emissions preceding any exception are exactly that
prefix. -/
theorem nitroRun_error_shape (hook : String) (arg : HookArg) (fs : Fs)
    (e : String) (tr : List Emission)
    (h : nitroRun hook arg fs = .error (e, tr)) :
    tr = nitroPrefixTrace hook ++
      [Emission.startProcess,
       Emission.message (MsgContents.startProcess "Welding packs") "important"] := by
  unfold nitroRun at h
  repeat' split at h
  all_goals simp_all

/-- The set_result helper never produces an Error message. -/
theorem nitroSetResult_not_error (hook : String) :
    isErrorMessage (nitroSetResult hook) = false := by
  unfold nitroSetResult; split <;> rfl

/-- C7: whenever run of nitro_weld.py raises anywhere between its skip
checks and its success path, main emits the emissions made before the
raise followed by exactly one important-level message whose contents are
the Error variant with the Failed to weld packs prefix and the raised
error text; that message is the last emission, so neither EndProcess nor
SetResult follows it. -/
theorem c7_error_reporting (hook : String) (arg : HookArg) (fs : Fs)
    (e : String) (tr : List Emission)
    (herr : nitroRun hook arg fs = .error (e, tr)) :
    nitroMain hook arg fs = tr ++
      [Emission.message
        (MsgContents.error ("Failed to weld packs:\n" ++ e)) "important"] ∧
    (nitroMain hook arg fs).filter isErrorMessage =
      [Emission.message
        (MsgContents.error ("Failed to weld packs:\n" ++ e)) "important"] ∧
    (nitroMain hook arg fs).getLast? =
      some (Emission.message
        (MsgContents.error ("Failed to weld packs:\n" ++ e)) "important") := by
  have hm : nitroMain hook arg fs = tr ++
      [Emission.message
        (MsgContents.error ("Failed to weld packs:\n" ++ e)) "important"] := by
    unfold nitroMain; rw [herr]
  have hshape := nitroRun_error_shape hook arg fs e tr herr
  have hclean : tr.filter isErrorMessage = [] := by
    subst hshape
    rw [List.filter_append]
    have h1 : (nitroPrefixTrace hook).filter isErrorMessage = [] := by
      unfold nitroPrefixTrace nitroSetResult
      split
      · split <;> rfl
      · rfl
    rw [h1]
    rfl
  refine ⟨hm, ?_, ?_⟩
  · rw [hm, List.filter_append, hclean]
    rfl
  · rw [hm]
    exact List.getLast?_concat _

/-- C7 witness: the error-reporting property at a concrete run whose
configured datapack folder is missing from the filesystem, so welding
raises FileNotFoundError after the two start messages. -/
theorem c7_error_reporting_witness :
    nitroRun "update_world_files" c7Arg c7Fs =
      .error ("FileNotFoundError",
        [Emission.startProcess,
         Emission.message (MsgContents.startProcess "Welding packs") "important"]) ∧
    (nitroMain "update_world_files" c7Arg c7Fs =
      [Emission.startProcess,
       Emission.message (MsgContents.startProcess "Welding packs") "important"] ++
      [Emission.message
        (MsgContents.error ("Failed to weld packs:\n" ++ "FileNotFoundError"))
        "important"] ∧
    (nitroMain "update_world_files" c7Arg c7Fs).filter isErrorMessage =
      [Emission.message
        (MsgContents.error ("Failed to weld packs:\n" ++ "FileNotFoundError"))
        "important"] ∧
    (nitroMain "update_world_files" c7Arg c7Fs).getLast? =
      some (Emission.message
        (MsgContents.error ("Failed to weld packs:\n" ++ "FileNotFoundError"))
        "important")) :=
  ⟨rfl, c7_error_reporting "update_world_files" c7Arg c7Fs "FileNotFoundError"
    [Emission.startProcess,
     Emission.message (MsgContents.startProcess "Welding packs") "important"]
    rfl⟩

/-- A non-skip successful run of mcvm_weld.py emits exactly the two
start messages, the success message and EndProcess, in that order. -/
theorem mcvmRun_nonskip_trace (arg : HookArg) (fs : Fs) (t : List Emission)
    (fs3 : Fs) (d : String)
    (hd : arg.update_depth = some d) (hds : d ≠ "shallow")
    (hdw : arg.config.disable_weld ≠ some true)
    (hok : mcvmRun "on_instance_setup" arg fs = .ok (t, fs3)) :
    t = [Emission.startProcess,
      Emission.message (MsgContents.startProcess "Welding packs") "important",
      Emission.message (MsgContents.success "Packs welded") "important",
      Emission.endProcess] := by
  unfold mcvmRun at hok
  rw [if_neg (by simp), hd] at hok
  repeat' split at hok
  all_goals simp_all

/-- A non-skip successful run of nitro_weld.py under a recognized hook
emits exactly the two start messages, the success message, EndProcess
and the terminal result, in that order. -/
theorem nitroRun_nonskip_trace (hook : String) (arg : HookArg) (fs : Fs)
    (g : FsPath) (t : List Emission) (fs2 : Fs)
    (hrec : hook = "after_packages_installed" ∨ hook = "on_instance_setup" ∨
      hook = "update_world_files")
    (hdepth : ¬(hook = "on_instance_setup" ∧ arg.update_depth = some "full"))
    (hdw : arg.config.disable_weld ≠ some true)
    (hgd : arg.game_dir = some g)
    (hok : nitroRun hook arg fs = .ok (t, fs2)) :
    t = [Emission.startProcess,
      Emission.message (MsgContents.startProcess "Welding packs") "important",
      Emission.message (MsgContents.success "Packs welded") "important",
      Emission.endProcess,
      nitroSetResult hook] := by
  have hpre : nitroPrefixTrace hook = [] := by
    unfold nitroPrefixTrace
    exact if_neg (not_not_intro hrec)
  unfold nitroRun at hok
  rw [hgd] at hok
  repeat' split at hok
  all_goals simp_all

/-- C6 (amended): in variant 2 every non-skip run (recognized hook, no
deferred full-depth setup, welding enabled, game directory present, no
exception) emits exactly StartProcess, the important start message, the
staging with no intermediate message, the important Packs welded
message, EndProcess, and last the terminal SetResult, whose payload is
the all-null override structure for the instance-setup hook and the
explicit null for other hooks.  In variant 1 a non-skip run emits the
same sequence without any SetResult: its only terminal result is the
module-level output call, emitted independently of run. -/
theorem c6_amended_message_order (hook : String) (arg : HookArg) (fs : Fs)
    (g : FsPath) (t : List Emission) (fs2 : Fs)
    (hrec : hook = "after_packages_installed" ∨ hook = "on_instance_setup" ∨
      hook = "update_world_files")
    (hdepth : ¬(hook = "on_instance_setup" ∧ arg.update_depth = some "full"))
    (hdw : arg.config.disable_weld ≠ some true)
    (hgd : arg.game_dir = some g)
    (hok : nitroRun hook arg fs = .ok (t, fs2)) :
    t = [Emission.startProcess,
      Emission.message (MsgContents.startProcess "Welding packs") "important",
      Emission.message (MsgContents.success "Packs welded") "important",
      Emission.endProcess,
      nitroSetResult hook] ∧
    t.getLast? = some (nitroSetResult hook) ∧
    (hook = "on_instance_setup" →
      nitroSetResult hook =
        Emission.setResult (SetResultPayload.instanceOverrides none none [])) ∧
    (hook ≠ "on_instance_setup" →
      nitroSetResult hook = Emission.setResult SetResultPayload.explicitNull) ∧
    (∀ (arg1 : HookArg) (fs1 : Fs) (t1 : List Emission) (fs3 : Fs) (d : String),
      arg1.update_depth = some d → d ≠ "shallow" →
      arg1.config.disable_weld ≠ some true →
      mcvmRun "on_instance_setup" arg1 fs1 = .ok (t1, fs3) →
      t1 = [Emission.startProcess,
        Emission.message (MsgContents.startProcess "Welding packs") "important",
        Emission.message (MsgContents.success "Packs welded") "important",
        Emission.endProcess] ∧
      (∀ m ∈ t1, m.isSetResult = false)) ∧
    (∀ (argv : List String) (fsx : Fs),
      mcvmModuleBody argv fsx =
        ([Emission.setResult (SetResultPayload.instanceOverrides none none [])],
         fsx)) := by
  have ht := nitroRun_nonskip_trace hook arg fs g t fs2 hrec hdepth hdw hgd hok
  refine ⟨ht, ?_, ?_, ?_, ?_, fun argv fsx => rfl⟩
  · rw [ht]; rfl
  · intro hh; unfold nitroSetResult; rw [if_pos hh]
  · intro hh; unfold nitroSetResult; rw [if_neg hh]
  · intro arg1 fs1 t1 fs3 d hd hds hdw1 hok1
    have ht1 := mcvmRun_nonskip_trace arg1 fs1 t1 fs3 d hd hds hdw1 hok1
    refine ⟨ht1, ?_⟩
    rw [ht1]
    intro m hm
    simp only [List.mem_cons, List.mem_singleton, List.not_mem_nil,
      or_false] at hm
    rcases hm with rfl | rfl | rfl | rfl <;> rfl

/-- C6 witness: the amended order property at a concrete non-skip run of
variant 2 under the world-files hook. -/
theorem c6_amended_message_order_witness :
    nitroRun "update_world_files" c6Arg c6Fs = .ok (c6wTrace, c6wFsAfter) ∧
    c6wTrace = [Emission.startProcess,
      Emission.message (MsgContents.startProcess "Welding packs") "important",
      Emission.message (MsgContents.success "Packs welded") "important",
      Emission.endProcess,
      nitroSetResult "update_world_files"] ∧
    c6wTrace.getLast? = some (nitroSetResult "update_world_files") :=
  ⟨by decide,
   (c6_amended_message_order "update_world_files" c6Arg c6Fs ["g"] c6wTrace
      c6wFsAfter (Or.inr (Or.inr rfl)) (by simp) (by simp [c6Arg]) rfl
      (by decide)).1,
   (c6_amended_message_order "update_world_files" c6Arg c6Fs ["g"] c6wTrace
      c6wFsAfter (Or.inr (Or.inr rfl)) (by simp) (by simp [c6Arg]) rfl
      (by decide)).2.1⟩

/-- Characterization of the staging contents after the forward loop: the
previous staging contents minus the names being moved, followed by the
moved marker-free files in listing order; the result has no duplicates. -/
theorem forwardMoves_snd (M : String) (ignore : List String) :
    ∀ (es f u : List String), es.Nodup → u.Nodup →
    (forwardMoves M ignore es f u).2 =
      u.filter (fun x => !decide (x ∈ movedFiles M es)) ++ movedFiles M es ∧
    ((forwardMoves M ignore es f u).2).Nodup := by
  intro es
  induction es with
  | nil =>
    intro f u _ hu
    simp [forwardMoves, movedFiles]
    exact hu
  | cons e rest ih =>
    intro f u hes hu
    have hrest : rest.Nodup := hes.of_cons
    have hne : e ∉ rest := by
      intro hc; exact (List.nodup_cons.mp hes).1 hc
    by_cases hM : substr M e = true
    · have : movedFiles M (e :: rest) = movedFiles M rest := by
        simp [movedFiles, List.filter_cons, hM]
      rw [this]
      simp only [forwardMoves, hM, if_pos rfl]
      exact ih f u hrest hu
    · have hMf : substr M e = false := by
        cases hb : substr M e
        · rfl
        · exact absurd hb hM
      have hmv : movedFiles M (e :: rest) = e :: movedFiles M rest := by
        simp [movedFiles, List.filter_cons, hMf]
      have hnm : e ∉ movedFiles M rest := by
        intro hc
        exact hne (List.mem_of_mem_filter hc)
      have hu1 : (u.erase e ++ [e]).Nodup := by
        rw [List.nodup_append]
        refine ⟨hu.erase e, List.nodup_singleton e, ?_⟩
        intro x hx hx1
        rcases List.mem_singleton.mp hx1 with rfl
        exact absurd hx (fun hc => ((hu.mem_erase_iff).mp hc).1 rfl)
      have hstep : forwardMoves M ignore (e :: rest) f u =
          forwardMoves M ignore rest (f.erase e) (u.erase e ++ [e]) := by
        simp only [forwardMoves, hMf]
        rfl
      rw [hstep, hmv]
      obtain ⟨ih1, ih2⟩ := ih (f.erase e) (u.erase e ++ [e]) hrest hu1
      constructor
      · rw [ih1, List.filter_append]
        have h1 : ([e].filter (fun x => !decide (x ∈ movedFiles M rest))) =
            [e] := by
          simp [List.filter, hnm]
        have h2 : (u.erase e).filter (fun x => !decide (x ∈ movedFiles M rest)) =
            u.filter (fun x => !decide (x ∈ e :: movedFiles M rest)) := by
          rw [hu.erase_eq_filter, List.filter_filter]
          apply List.filter_congr
          intro x _
          by_cases h3 : x = e <;> by_cases h4 : x ∈ movedFiles M rest <;>
            simp [h3, h4]
        rw [h1, h2, List.append_assoc]
        rfl
      · exact ih2

/-- After the forward loop the remaining directory files are a subset of
the original listing, every processed survivor carries the archive
marker, and no duplicates appear. -/
theorem forwardMoves_fst (M : String) (ignore : List String) :
    ∀ (es f u : List String), f.Nodup →
    ((forwardMoves M ignore es f u).1).Nodup ∧
    (∀ x ∈ (forwardMoves M ignore es f u).1,
      x ∈ f ∧ (x ∈ es → substr M x = true)) := by
  intro es
  induction es with
  | nil =>
    intro f u hf
    refine ⟨hf, fun x hx => ⟨hx, fun h => absurd h (List.not_mem_nil x)⟩⟩
  | cons e rest ih =>
    intro f u hf
    by_cases hM : substr M e = true
    · have hstep : forwardMoves M ignore (e :: rest) f u =
          forwardMoves M ignore rest f u := by
        simp only [forwardMoves, hM, if_true]
      rw [hstep]
      obtain ⟨ih1, ih2⟩ := ih f u hf
      refine ⟨ih1, fun x hx => ⟨(ih2 x hx).1, fun hm => ?_⟩⟩
      rcases List.mem_cons.mp hm with rfl | hm2
      · exact hM
      · exact (ih2 x hx).2 hm2
    · have hMf : substr M e = false := by
        cases hb : substr M e
        · rfl
        · exact absurd hb hM
      have hstep : forwardMoves M ignore (e :: rest) f u =
          forwardMoves M ignore rest (f.erase e) (u.erase e ++ [e]) := by
        simp only [forwardMoves, hMf]
        rfl
      rw [hstep]
      obtain ⟨ih1, ih2⟩ := ih (f.erase e) (u.erase e ++ [e]) (hf.erase e)
      refine ⟨ih1, fun x hx => ?_⟩
      have hxe : x ∈ f.erase e := (ih2 x hx).1
      have hxne : x ≠ e := by
        intro hc
        rw [hc] at hxe
        exact ((hf.mem_erase_iff).mp hxe).1 rfl
      refine ⟨List.mem_of_mem_erase hxe, fun hm => ?_⟩
      rcases List.mem_cons.mp hm with rfl | hm2
      · exact absurd rfl hxne
      · exact (ih2 x hx).2 hm2

/-- A staged entry matching no ignore pattern is left untouched by the
restoring inner loop. -/
theorem restoreEntry_noMatch (subdirs : List String) (e : String) :
    ∀ (pats f u : List String), (∀ p ∈ pats, substr p e = false) →
    restoreEntry subdirs e pats f u = .ok (f, u) := by
  intro pats
  induction pats with
  | nil => intro f u _; rfl
  | cons p rest ih =>
    intro f u hp
    have h1 : substr p e = false := hp p (List.mem_cons_self p rest)
    simp only [restoreEntry, h1]
    exact ih f u (fun q hq => hp q (List.mem_cons_of_mem p hq))

/-- A staged entry matching exactly one ignore pattern is moved out of
staging: the staged copy disappears and the inner loop returns normally. -/
theorem restoreEntry_oneMatch (subdirs : List String) (e : String) :
    ∀ (pats f u : List String),
    (pats.filter (fun p => substr p e)).length = 1 →
    e ∉ subdirs → e ≠ "unwelded" → e ∈ u →
    ∃ f1, restoreEntry subdirs e pats f u = .ok (f1, u.erase e) := by
  intro pats
  induction pats with
  | nil => intro f u h; cases h
  | cons p rest ih =>
    intro f u hlen hsub hun hu
    by_cases hp : substr p e = true
    · have hrest : ∀ q ∈ rest, substr q e = false := by
        have h0 : (rest.filter (fun q => substr q e)).length = 0 := by
          rw [List.filter_cons_of_pos (by simp [hp])] at hlen
          simpa using hlen
        intro q hq
        by_contra hc
        have hcq : substr q e = true := by
          cases hb : substr q e
          · exact absurd hb hc
          · rfl
        have : q ∈ rest.filter (fun q => substr q e) :=
          List.mem_filter.mpr ⟨hq, hcq⟩
        rw [List.length_eq_zero.mp h0] at this
        cases this
      refine ⟨(if e ∈ f then f.erase e else f) ++ [e], ?_⟩
      simp only [restoreEntry, hp, if_true]
      rw [if_neg (by push_neg; exact ⟨hsub, hun⟩), if_pos hu]
      exact restoreEntry_noMatch subdirs e rest _ _ hrest
    · have hpf : substr p e = false := by
        cases hb : substr p e
        · rfl
        · exact absurd hb hp
      have hlen2 : (rest.filter (fun q => substr q e)).length = 1 := by
        rw [List.filter_cons_of_neg (by simp [hpf])] at hlen
        exact hlen
      obtain ⟨f1, hf1⟩ := ih f u hlen2 hsub hun hu
      refine ⟨f1, ?_⟩
      simp only [restoreEntry, hpf]
      exact hf1

/-- Inversion of a successful restoring inner loop: the entry either
matched no pattern and nothing changed, or it matched exactly one
pattern, was no directory, was present in staging, and was moved out
(two or more matches always raise). -/
theorem restoreEntry_ok_inv (subdirs : List String) (e : String) :
    ∀ (pats f u f1 u1 : List String), u.Nodup → f.Nodup →
    restoreEntry subdirs e pats f u = .ok (f1, u1) →
    f1.Nodup ∧ u1.Nodup ∧
    (((pats.filter (fun p => substr p e)).length = 0 ∧ f1 = f ∧ u1 = u) ∨
     ((pats.filter (fun p => substr p e)).length = 1 ∧ e ∉ subdirs ∧
      e ≠ "unwelded" ∧ e ∈ u ∧ u1 = u.erase e ∧
      (∀ x ∈ f1, x ∈ f ∨ x = e))) := by
  intro pats
  induction pats with
  | nil =>
    intro f u f1 u1 hu hf h
    cases h
    exact ⟨hf, hu, Or.inl ⟨rfl, rfl, rfl⟩⟩
  | cons p rest ih =>
    intro f u f1 u1 hu hf h
    by_cases hp : substr p e = true
    · rw [show restoreEntry subdirs e (p :: rest) f u =
          (if e ∈ subdirs ∨ e = "unwelded" then .error "IsADirectoryError"
           else
             let fm := if e ∈ f then f.erase e else f
             if e ∈ u then restoreEntry subdirs e rest (fm ++ [e]) (u.erase e)
             else .error "FileNotFoundError") from by
        simp only [restoreEntry, hp, if_true]] at h
      by_cases hdir : e ∈ subdirs ∨ e = "unwelded"
      · rw [if_pos hdir] at h; cases h
      · rw [if_neg hdir] at h
        simp only [] at h
        by_cases heu : e ∈ u
        · rw [if_pos heu] at h
          have hfm : ((if e ∈ f then f.erase e else f) ++ [e]).Nodup := by
            rw [List.nodup_append]
            refine ⟨?_, List.nodup_singleton e, ?_⟩
            · split
              · exact hf.erase e
              · exact hf
            · intro x hx hx1
              rcases List.mem_singleton.mp hx1 with rfl
              revert hx
              split
              · intro hx
                exact ((hf.mem_erase_iff).mp hx).1 rfl
              · next hef => intro hx; exact hef hx
          obtain ⟨ihf, ihu, ihc⟩ :=
            ih _ (u.erase e) f1 u1 (hu.erase e) hfm h
          push_neg at hdir
          rcases ihc with ⟨hlen, hfeq, hueq⟩ | ⟨hlen, _, _, heu2, _, _⟩
          · refine ⟨ihf, ihu, Or.inr ⟨?_, hdir.1, hdir.2, heu, hueq, ?_⟩⟩
            · rw [List.filter_cons_of_pos (by simp [hp]), List.length_cons,
                hlen]
            · intro x hx
              rw [hfeq] at hx
              rcases List.mem_append.mp hx with h2 | h2
              · left
                revert h2
                split
                · intro h2; exact List.mem_of_mem_erase h2
                · intro h2; exact h2
              · right; exact List.mem_singleton.mp h2
          · exact absurd heu2 (fun hc => ((hu.mem_erase_iff).mp hc).1 rfl)
        · rw [if_neg heu] at h; cases h
    · have hpf : substr p e = false := by
        cases hb : substr p e
        · rfl
        · exact absurd hb hp
      rw [show restoreEntry subdirs e (p :: rest) f u =
          restoreEntry subdirs e rest f u from by
        simp only [restoreEntry, hpf]
        rfl] at h
      obtain ⟨ihf, ihu, ihc⟩ := ih f u f1 u1 hu hf h
      refine ⟨ihf, ihu, ?_⟩
      rw [List.filter_cons_of_neg (by simp [hpf])]
      exact ihc

/-- The restoring outer loop succeeds when every processed entry matches
at most one pattern and matched entries are movable, and it removes from
staging exactly the matched entries. -/
theorem restorePass_ok (ignore subdirs : List String) :
    ∀ (entries f u : List String), u.Nodup → entries.Nodup →
    (∀ x ∈ entries, x ∈ u) →
    (∀ x ∈ entries, matchCount ignore x = 0 ∨
      (matchCount ignore x = 1 ∧ x ∉ subdirs ∧ x ≠ "unwelded")) →
    ∃ f1, restorePass ignore subdirs entries f u =
      .ok (f1, u.filter (fun x =>
        !(decide (x ∈ entries) && decide (matchCount ignore x ≠ 0)))) := by
  intro entries
  induction entries with
  | nil =>
    intro f u _ _ _ _
    refine ⟨f, ?_⟩
    simp [restorePass]
  | cons e rest ih =>
    intro f u hu hes hmem hcond
    have hrest : rest.Nodup := hes.of_cons
    have hne : e ∉ rest := (List.nodup_cons.mp hes).1
    rcases hcond e (List.mem_cons_self e rest) with h0 | ⟨h1, hsub, hun⟩
    · have hstep : restoreEntry subdirs e ignore f u = .ok (f, u) := by
        apply restoreEntry_noMatch
        intro p hp
        by_contra hc
        have hpt : substr p e = true := by
          cases hb : substr p e
          · exact absurd hb hc
          · rfl
        have : p ∈ ignore.filter (fun p => substr p e) :=
          List.mem_filter.mpr ⟨hp, hpt⟩
        unfold matchCount at h0
        rw [List.length_eq_zero.mp h0] at this
        cases this
      obtain ⟨f1, hf1⟩ := ih f u hu hrest
        (fun x hx => hmem x (List.mem_cons_of_mem e hx))
        (fun x hx => hcond x (List.mem_cons_of_mem e hx))
      refine ⟨f1, ?_⟩
      simp only [restorePass, hstep]
      rw [hf1]
      have heq : List.filter (fun x =>
            !(decide (x ∈ rest) && decide (matchCount ignore x ≠ 0))) u =
          List.filter (fun x =>
            !(decide (x ∈ e :: rest) && decide (matchCount ignore x ≠ 0))) u := by
        apply List.filter_congr
        intro x _
        by_cases hxe : x = e
        · subst hxe
          simp [h0]
        · simp [List.mem_cons, hxe]
      rw [heq]
    · have heu : e ∈ u := hmem e (List.mem_cons_self e rest)
      obtain ⟨fm, hfm⟩ := restoreEntry_oneMatch subdirs e ignore f u h1 hsub hun heu
      obtain ⟨f1, hf1⟩ := ih fm (u.erase e) (hu.erase e) hrest
        (fun x hx => (List.mem_erase_of_ne
            (fun hc => hne (by rw [← hc]; exact hx))).mpr
          (hmem x (List.mem_cons_of_mem e hx)))
        (fun x hx => hcond x (List.mem_cons_of_mem e hx))
      refine ⟨f1, ?_⟩
      simp only [restorePass, hfm]
      rw [hf1]
      have heq : List.filter (fun x =>
            !(decide (x ∈ rest) && decide (matchCount ignore x ≠ 0)))
            (u.erase e) =
          List.filter (fun x =>
            !(decide (x ∈ e :: rest) && decide (matchCount ignore x ≠ 0))) u := by
        rw [hu.erase_eq_filter, List.filter_filter]
        apply List.filter_congr
        intro x _
        by_cases hxe : x = e
        · subst hxe
          simp [h1]
        · simp [List.mem_cons, hxe]
      rw [heq]

/-- Inversion of a successful restoring outer loop: surviving staged
entries match no pattern, and every file now in the directory either was
there before or is a restored entry with exactly one pattern match. -/
theorem restorePass_ok_inv (ignore subdirs : List String) :
    ∀ (entries f u f2 u2 : List String), u.Nodup → f.Nodup →
    restorePass ignore subdirs entries f u = .ok (f2, u2) →
    f2.Nodup ∧ u2.Nodup ∧
    (∀ x ∈ u2, x ∈ u ∧ (x ∈ entries → matchCount ignore x = 0)) ∧
    (∀ x ∈ f2, x ∈ f ∨
      (matchCount ignore x = 1 ∧ x ∉ subdirs ∧ x ≠ "unwelded")) := by
  intro entries
  induction entries with
  | nil =>
    intro f u f2 u2 hu hf h
    cases h
    refine ⟨hf, hu, fun x hx => ⟨hx, fun hc => absurd hc (List.not_mem_nil x)⟩,
      fun x hx => Or.inl hx⟩
  | cons e rest ih =>
    intro f u f2 u2 hu hf h
    rw [show restorePass ignore subdirs (e :: rest) f u =
        (match restoreEntry subdirs e ignore f u with
         | .error s => .error s
         | .ok (f1, u1) => restorePass ignore subdirs rest f1 u1) from rfl] at h
    cases hre : restoreEntry subdirs e ignore f u with
    | error s => rw [hre] at h; cases h
    | ok fu =>
      rw [hre] at h
      obtain ⟨fm, um⟩ := fu
      obtain ⟨hfm, hum, hc⟩ :=
        restoreEntry_ok_inv subdirs e ignore f u fm um hu hf hre
      obtain ⟨ihf, ihu, ihA, ihB⟩ := ih fm um f2 u2 hum hfm h
      rcases hc with ⟨hlen, hfeq, hueq⟩ | ⟨hlen, hsub, hun, heu, hueq, hmemf⟩
      · subst hfeq; subst hueq
        refine ⟨ihf, ihu, fun x hx => ⟨(ihA x hx).1, fun hm => ?_⟩, ihB⟩
        rcases List.mem_cons.mp hm with rfl | hm2
        · exact hlen
        · exact (ihA x hx).2 hm2
      · subst hueq
        refine ⟨ihf, ihu, fun x hx => ?_, fun x hx => ?_⟩
        · have hxu : x ∈ u.erase e := (ihA x hx).1
          have hxne : x ≠ e := by
            intro hc2
            rw [hc2] at hxu
            exact ((hu.mem_erase_iff).mp hxu).1 rfl
          refine ⟨List.mem_of_mem_erase hxu, fun hm => ?_⟩
          rcases List.mem_cons.mp hm with rfl | hm2
          · exact absurd rfl hxne
          · exact (ihA x hx).2 hm2
        · rcases ihB x hx with h2 | h2
          · rcases hmemf x h2 with h3 | h3
            · exact Or.inl h3
            · subst h3
              exact Or.inr ⟨hlen, hsub, hun⟩
          · exact Or.inr h2

/-- What a successful weld_dir of nitro_weld.py guarantees about the
resulting directory: subdirectories unchanged, a duplicate-free staging
listing of pattern-free names, and a duplicate-free file listing whose
members are marker files or singly-matched restored files. -/
theorem nitroWeldDirState_ok_facts (ignore : List String) (mode : String)
    (st st1 : DirState) (hwf : DirWellFormed st)
    (hok : nitroWeldDirState ignore mode st = .ok st1) :
    st1.subdirs = st.subdirs ∧
    (∃ u1, st1.unwelded = some u1 ∧ u1.Nodup ∧
      (∀ x ∈ u1, matchCount ignore x = 0)) ∧
    st1.files.Nodup ∧
    (∀ x ∈ st1.files, substr "Welded Packs" x = true ∨
      (matchCount ignore x = 1 ∧ x ∉ st.subdirs ∧ x ≠ "unwelded")) := by
  obtain ⟨hfN, hsN, huN, hunw, hdisj⟩ := hwf
  simp only [nitroWeldDirState] at hok
  obtain ⟨hr1N, hr1mem⟩ := forwardMoves_fst "Welded Packs" ignore st.files
    st.files (st.unwelded.getD []) hfN
  obtain ⟨hr2eq, hr2N⟩ := forwardMoves_snd "Welded Packs" ignore st.files
    st.files (st.unwelded.getD []) hfN huN
  cases hrp : restorePass ignore st.subdirs
      (forwardMoves "Welded Packs" ignore st.files st.files
        (st.unwelded.getD [])).2
      (forwardMoves "Welded Packs" ignore st.files st.files
        (st.unwelded.getD [])).1
      (forwardMoves "Welded Packs" ignore st.files st.files
        (st.unwelded.getD [])).2 with
  | error s =>
    rw [hrp] at hok
    simp at hok
  | ok fu =>
    rw [hrp] at hok
    obtain ⟨f2, u2⟩ := fu
    simp only [] at hok
    obtain ⟨hf2N, hu2N, hA, hB⟩ := restorePass_ok_inv ignore st.subdirs
      _ _ _ f2 u2 hr2N hr1N hrp
    have hfilesfact : ∀ x ∈ f2, substr "Welded Packs" x = true ∨
        (matchCount ignore x = 1 ∧ x ∉ st.subdirs ∧ x ≠ "unwelded") := by
      intro x hx
      rcases hB x hx with h2 | h2
      · exact Or.inl ((hr1mem x h2).2 (hr1mem x h2).1)
      · exact Or.inr h2
    have hufact : ∀ x ∈ u2, matchCount ignore x = 0 := by
      intro x hx
      exact (hA x hx).2 (hA x hx).1
    by_cases hm : mode = "data" ∨ mode = "resource"
    · rw [if_pos hm] at hok
      cases hok
      refine ⟨rfl, ⟨u2, rfl, hu2N, hufact⟩, ?_, ?_⟩
      · rw [List.nodup_append]
        refine ⟨hf2N.erase _, List.nodup_singleton _, ?_⟩
        intro x hx hx1
        rcases List.mem_singleton.mp hx1 with rfl
        exact ((hf2N.mem_erase_iff).mp hx).1 rfl
      · intro x hx
        rcases List.mem_append.mp hx with h2 | h2
        · exact hfilesfact x (List.mem_of_mem_erase h2)
        · rcases List.mem_singleton.mp h2 with rfl
          exact Or.inl (by decide)
    · rw [if_neg hm] at hok
      cases hok
      exact ⟨rfl, ⟨u2, rfl, hu2N, hufact⟩, hf2N, hfilesfact⟩

/-- Second-run stability for nitro_weld.py: welding an already welded
well-formed directory succeeds again and reproduces exactly the same
staging contents. -/
theorem nitroWeldDirState_idem (ignore : List String) (mode : String)
    (st st1 : DirState) (hwf : DirWellFormed st)
    (hok : nitroWeldDirState ignore mode st = .ok st1) :
    ∃ st2, nitroWeldDirState ignore mode st1 = .ok st2 ∧
      st2.unwelded = st1.unwelded := by
  obtain ⟨hsub, ⟨u1, hu1eq, hu1N, hu1mc⟩, hf1N, hf1mem⟩ :=
    nitroWeldDirState_ok_facts ignore mode st st1 hwf hok
  obtain ⟨hr2eq, hr2N⟩ := forwardMoves_snd "Welded Packs" ignore st1.files
    st1.files u1 hf1N hu1N
  have hmoved2fact : ∀ x ∈ movedFiles "Welded Packs" st1.files,
      matchCount ignore x = 1 ∧ x ∉ st1.subdirs ∧ x ≠ "unwelded" := by
    intro x hx
    have hxf : x ∈ st1.files := List.mem_of_mem_filter hx
    have hxm : substr "Welded Packs" x = false := by
      have h2 := List.of_mem_filter hx
      simp only [Bool.not_eq_true'] at h2
      exact h2
    rcases hf1mem x hxf with h2 | h2
    · rw [hxm] at h2; cases h2
    · exact ⟨h2.1, by rw [hsub]; exact h2.2.1, h2.2.2⟩
  have hu1nm : ∀ x ∈ u1, x ∉ movedFiles "Welded Packs" st1.files := by
    intro x hx hc
    have h2 := (hmoved2fact x hc).1
    rw [hu1mc x hx] at h2
    cases h2
  have hres2 : (forwardMoves "Welded Packs" ignore st1.files st1.files u1).2 =
      u1 ++ movedFiles "Welded Packs" st1.files := by
    rw [hr2eq]
    have h3 : u1.filter
        (fun x => !decide (x ∈ movedFiles "Welded Packs" st1.files)) = u1 :=
      List.filter_eq_self.mpr (fun x hx => by simp [hu1nm x hx])
    rw [h3]
  have hentriesN : (u1 ++ movedFiles "Welded Packs" st1.files).Nodup := by
    rw [← hres2]; exact hr2N
  obtain ⟨f1, hf1⟩ := restorePass_ok ignore st1.subdirs
    (u1 ++ movedFiles "Welded Packs" st1.files)
    (forwardMoves "Welded Packs" ignore st1.files st1.files u1).1
    (u1 ++ movedFiles "Welded Packs" st1.files)
    hentriesN hentriesN (fun x hx => hx)
    (fun x hx => by
      rcases List.mem_append.mp hx with h2 | h2
      · exact Or.inl (hu1mc x h2)
      · exact Or.inr (hmoved2fact x h2))
  have hfilter : (u1 ++ movedFiles "Welded Packs" st1.files).filter
      (fun x => !(decide (x ∈ u1 ++ movedFiles "Welded Packs" st1.files) &&
        decide (matchCount ignore x ≠ 0))) = u1 := by
    rw [List.filter_append]
    have h1 : u1.filter (fun x =>
        !(decide (x ∈ u1 ++ movedFiles "Welded Packs" st1.files) &&
          decide (matchCount ignore x ≠ 0))) = u1 :=
      List.filter_eq_self.mpr (fun x hx => by simp [hu1mc x hx])
    have h2 : (movedFiles "Welded Packs" st1.files).filter (fun x =>
        !(decide (x ∈ u1 ++ movedFiles "Welded Packs" st1.files) &&
          decide (matchCount ignore x ≠ 0))) = [] :=
      List.filter_eq_nil_iff.mpr (fun x hx => by
        simp [List.mem_append, hx, (hmoved2fact x hx).1])
    rw [h1, h2, List.append_nil]
  have hrw : restorePass ignore st1.subdirs
      (forwardMoves "Welded Packs" ignore st1.files st1.files u1).2
      (forwardMoves "Welded Packs" ignore st1.files st1.files u1).1
      (forwardMoves "Welded Packs" ignore st1.files st1.files u1).2 =
      .ok (f1, u1) := by
    rw [hres2, hf1, hfilter]
  by_cases hm : mode = "data" ∨ mode = "resource"
  · refine ⟨⟨f1.erase "Welded Packs.zip" ++ ["Welded Packs.zip"],
      st1.subdirs, some u1⟩, ?_, ?_⟩
    · simp only [nitroWeldDirState, hu1eq, Option.getD_some]
      rw [hrw]
      simp only []
      rw [if_pos hm]
    · rw [hu1eq]
  · refine ⟨⟨f1, st1.subdirs, some u1⟩, ?_, ?_⟩
    · simp only [nitroWeldDirState, hu1eq, Option.getD_some]
      rw [hrw]
      simp only []
      rw [if_neg hm]
    · rw [hu1eq]

/-- Second-run stability for mcvm_weld.py: after one welding pass every
remaining directory file carries the archive marker, so a second pass
moves nothing and the staging contents are unchanged. -/
theorem mcvmWeldDirState_idem (ignore : List String) (st : DirState)
    (hwf : DirWellFormed st) :
    (mcvmWeldDirState ignore (mcvmWeldDirState ignore st)).unwelded =
      (mcvmWeldDirState ignore st).unwelded := by
  obtain ⟨hfN, hsN, huN, hunw, hdisj⟩ := hwf
  obtain ⟨hr1N, hr1mem⟩ := forwardMoves_fst "weld_pack" ignore st.files
    st.files (st.unwelded.getD []) hfN
  obtain ⟨hr2eq, hr2N⟩ := forwardMoves_snd "weld_pack" ignore st.files
    st.files (st.unwelded.getD []) hfN huN
  have hst1files : (mcvmWeldDirState ignore st).files =
      (forwardMoves "weld_pack" ignore st.files st.files
        (st.unwelded.getD [])).1.erase "weld_pack.zip" ++ ["weld_pack.zip"] := rfl
  have hst1unw : (mcvmWeldDirState ignore st).unwelded =
      some (forwardMoves "weld_pack" ignore st.files st.files
        (st.unwelded.getD [])).2 := rfl
  have hf1N : (mcvmWeldDirState ignore st).files.Nodup := by
    rw [hst1files, List.nodup_append]
    exact ⟨hr1N.erase _, List.nodup_singleton _, fun x hx hx1 => by
      rcases List.mem_singleton.mp hx1 with rfl
      exact ((hr1N.mem_erase_iff).mp hx).1 rfl⟩
  have hall : ∀ x ∈ (mcvmWeldDirState ignore st).files,
      substr "weld_pack" x = true := by
    intro x hx
    rw [hst1files] at hx
    rcases List.mem_append.mp hx with h2 | h2
    · have h3 := hr1mem x (List.mem_of_mem_erase h2)
      exact h3.2 h3.1
    · rcases List.mem_singleton.mp h2 with rfl
      decide
  have hmv : movedFiles "weld_pack" (mcvmWeldDirState ignore st).files = [] :=
    List.filter_eq_nil_iff.mpr (fun x hx => by simp [hall x hx])
  obtain ⟨hr2eq2, hr2N2⟩ := forwardMoves_snd "weld_pack" ignore
    (mcvmWeldDirState ignore st).files (mcvmWeldDirState ignore st).files
    ((mcvmWeldDirState ignore st).unwelded.getD []) hf1N hr2N
  have hfin : (mcvmWeldDirState ignore (mcvmWeldDirState ignore st)).unwelded =
      some ((forwardMoves "weld_pack" ignore
        (mcvmWeldDirState ignore st).files
        (mcvmWeldDirState ignore st).files
        ((mcvmWeldDirState ignore st).unwelded.getD [])).2) := rfl
  rw [hfin, hr2eq2, hmv]
  simp [hst1unw]

/-- C10: staging is idempotent.  For a well-formed directory, when the
first weld_dir of nitro_weld.py completes normally, running it again
with the same ignore list and no files added completes normally and
leaves the unwelded staging subdirectory with exactly the same contents;
and two runs of weld_dir of mcvm_weld.py likewise leave the same staging
contents as one run (no file duplicated, no file lost). -/
theorem c10_staging_idempotent (ignore : List String) (mode : String)
    (st st1 : DirState) (hwf : DirWellFormed st)
    (hok : nitroWeldDirState ignore mode st = .ok st1) :
    (∃ st2, nitroWeldDirState ignore mode st1 = .ok st2 ∧
      st2.unwelded = st1.unwelded) ∧
    (mcvmWeldDirState ignore (mcvmWeldDirState ignore st)).unwelded =
      (mcvmWeldDirState ignore st).unwelded :=
  ⟨nitroWeldDirState_idem ignore mode st st1 hwf hok,
   mcvmWeldDirState_idem ignore st hwf⟩

/-- C10 witness: idempotence applied to a concrete directory with one
ignored and one staged file. -/
theorem c10_staging_idempotent_witness :
    DirWellFormed c10St ∧
    nitroWeldDirState ["b"] "data" c10St =
      .ok ⟨["b.zip", "Welded Packs.zip"], [], some ["a.zip"]⟩ ∧
    ((∃ st2, nitroWeldDirState ["b"] "data"
        ⟨["b.zip", "Welded Packs.zip"], [], some ["a.zip"]⟩ = .ok st2 ∧
       st2.unwelded =
         (⟨["b.zip", "Welded Packs.zip"], [], some ["a.zip"]⟩ : DirState).unwelded) ∧
     (mcvmWeldDirState ["b"] (mcvmWeldDirState ["b"] c10St)).unwelded =
       (mcvmWeldDirState ["b"] c10St).unwelded) :=
  ⟨by decide, by decide,
   c10_staging_idempotent ["b"] "data" c10St
     ⟨["b.zip", "Welded Packs.zip"], [], some ["a.zip"]⟩
     (by decide) (by decide)⟩
